import Mathlib

/-!
Verification of the secure websocket transport adapter
(`engineio/src/asynchronous/async_transports/websocket_secure.rs`).

The adapter stores a base URL behind an `Arc<RwLock<Url>>`.  Its
constructor `new` normalizes the URL by unconditionally appending the
query pair `transport=websocket` and forcing the scheme to `wss`;
`set_base_url` appends the pair only when no such pair is present, then
forces the scheme, and stores the result.  We embed the URL operations
used by the adapter (from the `url` crate's documented semantics), the
header handling of the upgrade request (from the `http` crate's
`HeaderMap::extend` semantics), the fallible connect step, and an
interleaving model of the lock-protected URL cell.
-/

namespace WebsocketSecure

/-- Model of `url::Url` restricted to the components the adapter reads or
writes: scheme, host, path, and the decoded query pairs in order.  The
port is never inspected by the adapter and is omitted; `host = ""`
renders a URL whose host is empty or absent. -/
structure Url where
  scheme : String
  host : String
  path : String
  query : List (String × String)
deriving DecidableEq, Repr

/-- Special schemes of the WHATWG URL standard, as classified by the
`url` crate's `SchemeType::from`. -/
def isSpecial (s : String) : Bool :=
  s == "http" || s == "https" || s == "ws" || s == "wss" || s == "ftp" || s == "file"

/-- Model of `Url::set_scheme(self, "wss")` from the `url` crate: the new
scheme `wss` is syntactically valid and special, so the call succeeds
exactly when the old scheme is also special (no special/non-special
mismatch) and the URL has a host (a special non-file scheme requires
one; cannot-be-a-base URLs have no host and are covered by `host = ""`).
`none` models the `Err(())` return, which the adapter meets with
`.unwrap()`, i.e. a panic. -/
def setSchemeWss (u : Url) : Option Url :=
  if isSpecial u.scheme = true ∧ u.host ≠ "" then some { u with scheme := "wss" } else none

/-- Model of `url.query_pairs_mut().append_pair(k, v)`: appends one pair
at the end of the query, leaving all existing pairs in place. -/
def appendPair (u : Url) (k v : String) : Url :=
  { u with query := u.query ++ [(k, v)] }

/-- The query pair the protocol requires, as tested by `set_base_url`'s
closure `|(k, v)| k == "transport" && v == "websocket"`. -/
def isTW (p : String × String) : Bool :=
  p.1 == "transport" && p.2 == "websocket"

/-- Model of `url.query_pairs().any(|(k, v)| k == "transport" && v == "websocket")`. -/
def hasTW (u : Url) : Bool :=
  u.query.any isTW

/-- Number of `transport=websocket` pairs in the query. -/
def countTW (u : Url) : Nat :=
  (u.query.filter isTW).length

/-- URL normalization performed by `WebsocketSecureTransport::new`
(lines 34-36): unconditionally `append_pair("transport", "websocket")`,
then `set_scheme("wss")`.  `none` models the unwrap panic. -/
def newNormalize (u : Url) : Option Url :=
  setSchemeWss (appendPair u "transport" "websocket")

/-- URL normalization performed by
`WebsocketSecureTransport::set_base_url` (lines 82-89): append the pair
only if no `transport=websocket` pair is present, then `set_scheme("wss")`. -/
def setBaseUrlNormalize (u : Url) : Option Url :=
  setSchemeWss (if hasTW u then u else appendPair u "transport" "websocket")

/-- The scheme is an HTTP-family (`http`, `https`) or WebSocket-family
(`ws`, `wss`) scheme. -/
def httpOrWsFamily (s : String) : Prop :=
  s = "http" ∨ s = "https" ∨ s = "ws" ∨ s = "wss"

instance (s : String) : Decidable (httpOrWsFamily s) := by
  unfold httpOrWsFamily; infer_instance

/-- Model of `http::HeaderMap::insert`-style first occurrence during
`extend`: the values previously associated with the name are removed and
the new value takes their place. -/
def headerInsert (hs : List (String × String)) (n v : String) : List (String × String) :=
  hs.filter (fun p => p.1 != n) ++ [(n, v)]

/-- Model of `http::HeaderMap::append`-style subsequent occurrences
during `extend`: the value is added while keeping the ones already
present for the same name. -/
def headerAppend (hs : List (String × String)) (n v : String) : List (String × String) :=
  hs ++ [(n, v)]

/-- Worker for `headerExtend`: per the `http` crate, the first entry of
the extending map for a given name acts like `insert`, and each further
entry for that same name acts like `append`.  `seen` records the names
already met while consuming the extending map. -/
def headerExtendGo : List (String × String) → List (String × String) → List String →
    List (String × String)
  | hs, [], _ => hs
  | hs, (n, v) :: rest, seen =>
    if n ∈ seen then headerExtendGo (headerAppend hs n v) rest seen
    else headerExtendGo (headerInsert hs n v) rest (n :: seen)

/-- Model of `req.headers_mut().unwrap().extend(map)` (line 41). -/
def headerExtend (hs m : List (String × String)) : List (String × String) :=
  headerExtendGo hs m []

/-- Headers of the upgrade request built by `new` (lines 38-42): the
request starts from `http::Request::builder().uri(...)`, whose header
collection is empty, and is extended by the supplied map when one is
given. -/
def requestHeaders : Option (List (String × String)) → List (String × String)
  | none => []
  | some m => headerExtend [] m

/-- Causes with which `connect_async_tls_with_config` can fail. -/
inductive HsError
  | tls
  | tcp
  | httpUpgradeRejected
  | unreachableHost
deriving DecidableEq, Repr

/-- The crate error wrapping a failed handshake (the `?` on the connect
call converts the tungstenite error into the crate's error type). -/
inductive ClientError
  | connect (cause : HsError)
deriving DecidableEq, Repr

/-- Opaque stand-in for the websocket stream obtained on success. -/
structure WsStream where
  id : Nat
deriving DecidableEq, Repr

/-- The constructed transport: the delegate built from the split stream
halves together with the stored normalized base URL. -/
structure Transport where
  stream : WsStream
  baseUrl : Url
deriving DecidableEq, Repr

/-- Model of `WebsocketSecureTransport::new` around its connect step
(lines 44-58).  The handshake oracle gives the outcome of the `i`-th
connect attempt; the code awaits attempt `0` once and never again, so
the second component counts the attempts consumed (always `1`).  On
`Err(e)` the `?` operator returns `Except.error` wrapping the cause and
no transport is built; on `Ok` the stream and the normalized URL are
wrapped into the transport.  `none` models the scheme-rewrite panic. -/
def newConn (base : Url) (handshake : Nat → Except HsError WsStream) :
    Option (Except ClientError Transport × Nat) :=
  match newNormalize base with
  | none => none
  | some url =>
    match handshake 0 with
    | Except.error e => some (Except.error (ClientError.connect e), 1)
    | Except.ok s => some (Except.ok ⟨s, url⟩, 1)

/-- Contents of the `RwLock<Url>` cell after `set_base_url(u)` returned,
paired with the `Result` value the call produces (line 91 returns
`Ok(())` unconditionally once the write happened).  `none` models the
`set_scheme` unwrap panic. -/
def setBaseUrlCall (u : Url) : Option (Except ClientError Unit × Url) :=
  (setBaseUrlNormalize u).map (fun v => (Except.ok (), v))

/-- Model of `base_url` (lines 77-79): returns a snapshot clone of the
cell contents. -/
def baseUrlCall (cell : Url) : Url :=
  cell

/-- Atomic actions on the URL cell.  The `RwLock` write guard makes each
`set_base_url` store one atomic transition (each writer normalizes its
own URL locally before taking the lock, line 90), and each `base_url`
read observes the cell between transitions. -/
inductive Act
  | writeA
  | writeB
  | readU
deriving DecidableEq, Repr

/-- Cell contents after an interleaving of two writers storing the
normalized URLs `a` and `b` and any number of readers. -/
def runState (a b init : Url) (tr : List Act) : Url :=
  tr.foldl (fun s act => match act with | Act.writeA => a | Act.writeB => b | Act.readU => s) init

/-- The already-canonical URL `wss://example.com/?transport=websocket`. -/
def canonicalUrl : Url :=
  ⟨"wss", "example.com", "/", [("transport", "websocket")]⟩

/-- The URL `wss://example.com/` with an empty query. -/
def bareWssUrl : Url :=
  ⟨"wss", "example.com", "/", []⟩

/-- The URL `http://example.com/socket.io/?foo=bar` of the spec scenario. -/
def scenarioUrl : Url :=
  ⟨"http", "example.com", "/socket.io/", [("foo", "bar")]⟩

/-- The normalized form of `scenarioUrl`:
`wss://example.com/socket.io/?foo=bar&transport=websocket`. -/
def scenarioNorm : Url :=
  ⟨"wss", "example.com", "/socket.io/", [("foo", "bar"), ("transport", "websocket")]⟩

/-- The handshake oracle of an unreachable host: every attempt fails. -/
def unreachableHandshake : Nat → Except HsError WsStream :=
  fun _ => Except.error HsError.unreachableHost

/-- An HTTP- or WebSocket-family scheme is special. -/
theorem isSpecial_of_family {s : String} (h : httpOrWsFamily s) : isSpecial s = true := by
  rcases h with h | h | h | h <;> subst h <;> rfl

/-- When `set_scheme("wss")` succeeds it only rewrites the scheme. -/
theorem setSchemeWss_some {u v : Url} (h : setSchemeWss u = some v) :
    v = { u with scheme := "wss" } := by
  unfold setSchemeWss at h
  split at h
  · exact (Option.some.injEq _ _ ▸ h).symm
  · exact absurd h (by simp)

/-- For a special-scheme URL with a host, `set_scheme("wss")` succeeds. -/
theorem setSchemeWss_pos {u : Url} (h1 : isSpecial u.scheme = true) (h2 : u.host ≠ "") :
    setSchemeWss u = some { u with scheme := "wss" } := by
  unfold setSchemeWss
  rw [if_pos ⟨h1, h2⟩]

/-- Absence of the marker pair is the same as a zero count. -/
theorem hasTW_false_iff {u : Url} : hasTW u = false ↔ countTW u = 0 := by
  unfold hasTW countTW
  simp [List.any_eq_false, List.length_eq_zero, List.filter_eq_nil_iff]

/-- The count after appending the marker pair grows by one. -/
theorem countTW_appendTW (u : Url) :
    countTW (appendPair u "transport" "websocket") = countTW u + 1 := by
  simp [countTW, appendPair, List.filter_append, isTW]

/-- Appending the marker makes `hasTW` true. -/
theorem hasTW_appendTW (u : Url) :
    hasTW (appendPair u "transport" "websocket") = true := by
  simp [hasTW, appendPair, List.any_append, isTW]

/-- What `new`'s normalization produces on a family-scheme URL with a host. -/
theorem newNormalize_eq {u : Url} (hf : httpOrWsFamily u.scheme) (hh : u.host ≠ "") :
    newNormalize u =
      some { u with scheme := "wss", query := u.query ++ [("transport", "websocket")] } := by
  unfold newNormalize
  rw [setSchemeWss_pos (u := appendPair u "transport" "websocket") (isSpecial_of_family hf) hh]
  rfl

/-- What `set_base_url`'s normalization produces when the marker is present. -/
theorem setBaseUrlNormalize_eq_pos {u : Url} (hf : httpOrWsFamily u.scheme) (hh : u.host ≠ "")
    (ht : hasTW u = true) :
    setBaseUrlNormalize u = some { u with scheme := "wss" } := by
  unfold setBaseUrlNormalize
  rw [ht]
  simp only [if_true]
  exact setSchemeWss_pos (isSpecial_of_family hf) hh

/-- What `set_base_url`'s normalization produces when the marker is absent. -/
theorem setBaseUrlNormalize_eq_neg {u : Url} (hf : httpOrWsFamily u.scheme) (hh : u.host ≠ "")
    (ht : hasTW u = false) :
    setBaseUrlNormalize u =
      some { u with scheme := "wss", query := u.query ++ [("transport", "websocket")] } := by
  unfold setBaseUrlNormalize
  rw [ht]
  simp only [if_false, Bool.false_eq_true]
  exact setSchemeWss_pos (u := appendPair u "transport" "websocket") (isSpecial_of_family hf) hh

/-- On a URL that is already normalized, `set_base_url`'s normalization
is the identity. -/
theorem setBaseUrlNormalize_fixed {u : Url} (hs : u.scheme = "wss") (hh : u.host ≠ "")
    (ht : hasTW u = true) :
    setBaseUrlNormalize u = some u := by
  have hf : httpOrWsFamily u.scheme := Or.inr (Or.inr (Or.inr hs))
  rw [setBaseUrlNormalize_eq_pos hf hh ht]
  cases u
  simp_all

/-- C1 counterexample: on the already-canonical input
`wss://example.com/?transport=websocket`, the normalization performed by
`new` appends a second `transport=websocket` pair, so the stored URL
carries two such pairs, not exactly one, and differs from the input. -/
theorem newNormalize_duplicates_marker_cex :
    (newNormalize canonicalUrl).map countTW = some 2
    ∧ (newNormalize canonicalUrl).map countTW ≠ some 1
    ∧ newNormalize canonicalUrl ≠ some canonicalUrl := by
  decide

/-- C1 (amended): `set_base_url`'s normalization yields exactly one
`transport=websocket` pair whenever the input carries at most one (it
appends only when none is present and never removes duplicates), and an
already-canonical input is left unchanged by it; `new`'s normalization
appends a pair unconditionally, so it yields exactly one pair only when
the input carried none. -/
theorem marker_count_amended (u : Url) (hf : httpOrWsFamily u.scheme) (hh : u.host ≠ "") :
    (countTW u = 0 → (newNormalize u).map countTW = some 1)
    ∧ (countTW u ≤ 1 → (setBaseUrlNormalize u).map countTW = some 1)
    ∧ (u.scheme = "wss" → hasTW u = true → setBaseUrlNormalize u = some u) := by
  refine ⟨?_, ?_, fun hs htw => setBaseUrlNormalize_fixed hs hh htw⟩
  · intro h0
    rw [newNormalize_eq hf hh]
    have hc : countTW { u with scheme := "wss", query := u.query ++ [("transport", "websocket")] }
        = countTW u + 1 := by
      simp [countTW, List.filter_append, isTW]
    simp [hc, h0]
  · intro hle
    cases ht : hasTW u with
    | false =>
      rw [setBaseUrlNormalize_eq_neg hf hh ht]
      have h0 : countTW u = 0 := hasTW_false_iff.mp ht
      have hc : countTW { u with scheme := "wss", query := u.query ++ [("transport", "websocket")] }
          = countTW u + 1 := by
        simp [countTW, List.filter_append, isTW]
      simp [hc, h0]
    | true =>
      rw [setBaseUrlNormalize_eq_pos hf hh ht]
      have h1 : countTW u ≠ 0 := fun h => by
        rw [hasTW_false_iff.mpr h] at ht
        exact Bool.false_ne_true ht
      have hc : countTW { u with scheme := "wss" } = countTW u := rfl
      have h2 : countTW u = 1 := by omega
      simp only [Option.map_some', hc, h2]

/-- C1 witness: the amended statement at the concrete input
`http://example.com/socket.io/?foo=bar`. -/
theorem marker_count_amended_witness :
    (newNormalize scenarioUrl).map countTW = some 1
    ∧ (setBaseUrlNormalize scenarioUrl).map countTW = some 1 := by
  have h := marker_count_amended scenarioUrl (Or.inl rfl) (by decide)
  exact ⟨h.1 (by decide), h.2.1 (by decide)⟩

/-- C2 counterexample: applying `new`'s normalization twice to
`wss://example.com/` appends the marker pair twice, so the result
differs from a single application — the normalization performed in `new`
is not idempotent. -/
theorem newNormalize_not_idempotent_cex :
    Option.bind (newNormalize bareWssUrl) newNormalize ≠ newNormalize bareWssUrl := by
  decide

/-- C2 (amended): the normalization performed in `set_base_url` (append
the marker pair only if absent, force scheme `wss`) is idempotent for
every absolute URL with an HTTP- or WebSocket-family scheme; the
normalization performed in `new` is not idempotent. -/
theorem setBaseUrlNormalize_idempotent (u : Url) (hf : httpOrWsFamily u.scheme)
    (hh : u.host ≠ "") :
    Option.bind (setBaseUrlNormalize u) setBaseUrlNormalize = setBaseUrlNormalize u := by
  cases ht : hasTW u with
  | true =>
    rw [setBaseUrlNormalize_eq_pos hf hh ht]
    exact setBaseUrlNormalize_fixed rfl hh ht
  | false =>
    rw [setBaseUrlNormalize_eq_neg hf hh ht]
    exact setBaseUrlNormalize_fixed rfl hh (by simp [hasTW, List.any_append, isTW])

/-- C2 witness: idempotence of `set_base_url`'s normalization at the
concrete input `http://example.com/socket.io/?foo=bar`. -/
theorem setBaseUrlNormalize_idempotent_witness :
    Option.bind (setBaseUrlNormalize scenarioUrl) setBaseUrlNormalize
      = setBaseUrlNormalize scenarioUrl :=
  setBaseUrlNormalize_idempotent scenarioUrl (Or.inl rfl) (by decide)

/-- C3: for every URL with an HTTP-family or WebSocket-family scheme,
both normalizations store a URL whose scheme is `wss`; concretely,
`http://example.com/socket.io/?foo=bar` normalizes to
`wss://example.com/socket.io/?foo=bar&transport=websocket` under both. -/
theorem normalize_scheme_wss (u : Url) (hf : httpOrWsFamily u.scheme) (hh : u.host ≠ "") :
    (newNormalize u).map Url.scheme = some "wss"
    ∧ (setBaseUrlNormalize u).map Url.scheme = some "wss"
    ∧ newNormalize scenarioUrl =
        some ⟨"wss", "example.com", "/socket.io/", [("foo", "bar"), ("transport", "websocket")]⟩
    ∧ setBaseUrlNormalize scenarioUrl =
        some ⟨"wss", "example.com", "/socket.io/", [("foo", "bar"), ("transport", "websocket")]⟩ := by
  refine ⟨?_, ?_, by decide, by decide⟩
  · rw [newNormalize_eq hf hh]; rfl
  · cases ht : hasTW u with
    | true => rw [setBaseUrlNormalize_eq_pos hf hh ht]; rfl
    | false => rw [setBaseUrlNormalize_eq_neg hf hh ht]; rfl

/-- C3 witness: the scheme rewrite at the concrete scenario input. -/
theorem normalize_scheme_wss_witness :
    (newNormalize scenarioUrl).map Url.scheme = some "wss"
    ∧ (setBaseUrlNormalize scenarioUrl).map Url.scheme = some "wss" := by
  have h := normalize_scheme_wss scenarioUrl (Or.inl rfl) (by decide)
  exact ⟨h.1, h.2.1⟩

/-- C4: for an absolute URL with an HTTP-family or WebSocket-family
scheme (which, as parsed by the `url` crate, always has a host), the
`set_scheme("wss")` rewrite succeeds in both `new` and `set_base_url`,
so the `.unwrap()` panic branch is unreachable: both normalizations
return a value rather than the `none` that models the panic. -/
theorem setSchemeWss_unwrap_safe (u : Url) (hf : httpOrWsFamily u.scheme) (hh : u.host ≠ "") :
    (newNormalize u).isSome = true ∧ (setBaseUrlNormalize u).isSome = true := by
  constructor
  · rw [newNormalize_eq hf hh]; rfl
  · cases ht : hasTW u with
    | true => rw [setBaseUrlNormalize_eq_pos hf hh ht]; rfl
    | false => rw [setBaseUrlNormalize_eq_neg hf hh ht]; rfl

/-- C4 witness: no panic at the concrete scenario input. -/
theorem setSchemeWss_unwrap_safe_witness :
    (newNormalize scenarioUrl).isSome = true ∧ (setBaseUrlNormalize scenarioUrl).isSome = true :=
  setSchemeWss_unwrap_safe scenarioUrl (Or.inl rfl) (by decide)

/-- C5: when `set_base_url(u)` returns `Ok(())` having stored `st`, a
subsequent `base_url()` with no interleaved write returns `st`, which is
normalized (scheme `wss`, marker pair present); and whenever `u` was not
already normalized, the returned URL differs from the raw input `u`. -/
theorem set_then_get_normalized (u st : Url)
    (hset : setBaseUrlCall u = some (Except.ok (), st)) :
    (baseUrlCall st).scheme = "wss"
    ∧ hasTW (baseUrlCall st) = true
    ∧ (¬ (u.scheme = "wss" ∧ hasTW u = true) → baseUrlCall st ≠ u) := by
  unfold setBaseUrlCall at hset
  cases h : setBaseUrlNormalize u with
  | none => rw [h] at hset; exact absurd hset (by simp)
  | some v =>
    rw [h] at hset
    simp only [Option.map_some', Option.some.injEq, Prod.mk.injEq] at hset
    cases hset.2
    unfold setBaseUrlNormalize at h
    split at h
    · next ht =>
      have hv := setSchemeWss_some h
      subst hv
      refine ⟨rfl, ht, fun hnn heq => ?_⟩
      apply hnn
      refine ⟨?_, ht⟩
      have := congrArg Url.scheme heq
      exact this.symm.trans rfl
    · next ht =>
      have hv := setSchemeWss_some h
      subst hv
      refine ⟨rfl, ?_, fun _ heq => ?_⟩
      · show hasTW { u with scheme := "wss", query := u.query ++ [("transport", "websocket")] }
            = true
        simp [hasTW, List.any_append, List.any_cons, List.any_nil, isTW]
      · have := congrArg (fun x => x.query.length) heq
        simp [baseUrlCall, appendPair] at this

/-- C5 witness: the concrete scenario input is stored in normalized form
and the getter does not return the raw input. -/
theorem set_then_get_normalized_witness :
    (baseUrlCall scenarioNorm).scheme = "wss"
    ∧ hasTW (baseUrlCall scenarioNorm) = true
    ∧ baseUrlCall scenarioNorm ≠ scenarioUrl := by
  have h := set_then_get_normalized scenarioUrl scenarioNorm rfl
  exact ⟨h.1, h.2.1, h.2.2 (by decide)⟩

/-- C6: both normalizations change only the scheme and the
`transport=websocket` marker: the host, the path, and the sequence of
query pairs other than the marker are preserved unchanged and in order. -/
theorem normalize_frame_preserving (u v w : Url) (hn : newNormalize u = some v)
    (hs : setBaseUrlNormalize u = some w) :
    (v.host = u.host ∧ v.path = u.path
      ∧ v.query.filter (fun p => !(isTW p)) = u.query.filter (fun p => !(isTW p)))
    ∧ (w.host = u.host ∧ w.path = u.path
      ∧ w.query.filter (fun p => !(isTW p)) = u.query.filter (fun p => !(isTW p))) := by
  unfold newNormalize at hn
  have hv := setSchemeWss_some hn
  subst hv
  unfold setBaseUrlNormalize at hs
  constructor
  · exact ⟨rfl, rfl, by simp [appendPair, List.filter_append, isTW]⟩
  · split at hs
    · have hw := setSchemeWss_some hs
      subst hw
      exact ⟨rfl, rfl, rfl⟩
    · have hw := setSchemeWss_some hs
      subst hw
      exact ⟨rfl, rfl, by simp [appendPair, List.filter_append, isTW]⟩

/-- C6 witness: frame preservation at the concrete scenario input. -/
theorem normalize_frame_preserving_witness :
    (scenarioNorm.host = scenarioUrl.host ∧ scenarioNorm.path = scenarioUrl.path
      ∧ scenarioNorm.query.filter (fun p => !(isTW p))
        = scenarioUrl.query.filter (fun p => !(isTW p)))
    ∧ (scenarioNorm.host = scenarioUrl.host ∧ scenarioNorm.path = scenarioUrl.path
      ∧ scenarioNorm.query.filter (fun p => !(isTW p))
        = scenarioUrl.query.filter (fun p => !(isTW p))) :=
  normalize_frame_preserving scenarioUrl scenarioNorm scenarioNorm (by decide) (by decide)

/-- During `extend`, once every name present in the accumulated headers
has already been seen, the remaining entries are simply appended. -/
theorem headerExtendGo_all_seen (rest : List (String × String)) :
    ∀ (hs : List (String × String)) (seen : List String),
      (∀ p ∈ hs, p.1 ∈ seen) → headerExtendGo hs rest seen = hs ++ rest := by
  induction rest with
  | nil => intro hs seen _; simp [headerExtendGo]
  | cons e rest ih =>
    obtain ⟨n, v⟩ := e
    intro hs seen h
    unfold headerExtendGo
    split
    · next hn =>
      rw [ih (headerAppend hs n v) seen ?_]
      · simp [headerAppend]
      · intro p hp
        rcases List.mem_append.mp hp with hp | hp
        · exact h p hp
        · simp at hp
          rw [hp]
          exact hn
    · next hn =>
      have hf : headerInsert hs n v = hs ++ [(n, v)] := by
        unfold headerInsert
        rw [List.filter_eq_self.mpr]
        intro a ha
        have : a.1 ∈ seen := h a ha
        simp only [bne_iff_ne, ne_eq]
        exact fun he => hn (he ▸ this)
      rw [hf, ih (hs ++ [(n, v)]) (n :: seen) ?_]
      · simp
      · intro p hp
        rcases List.mem_append.mp hp with hp | hp
        · exact List.mem_cons_of_mem n (h p hp)
        · simp at hp
          rw [hp]
          exact List.mem_cons_self n seen

/-- C7: the upgrade request built by `new` starts with an empty header
collection, and extending it with the supplied map reproduces the map
exactly — every (name, value) entry appears, in order, with multiple
values for the same name all preserved and nothing deduplicated,
replaced, or dropped. -/
theorem headers_extend_all_preserved (m : List (String × String)) :
    requestHeaders (some m) = m := by
  show headerExtend [] m = m
  unfold headerExtend
  rw [headerExtendGo_all_seen m [] [] (by simp)]
  simp

/-- C8: when the handshake of `new` fails, `new` propagates an error
wrapping the underlying cause and no transport instance is built; the
handshake oracle is consulted exactly once (no retry); and the error and
success outcomes are the two mutually exclusive constructors of the
returned `Except`. -/
theorem newConn_error_no_retry (base url : Url) (handshake : Nat → Except HsError WsStream)
    (hn : newNormalize base = some url) :
    ((newConn base handshake).map Prod.snd = some 1)
    ∧ (∀ e, handshake 0 = Except.error e →
        newConn base handshake = some (Except.error (ClientError.connect e), 1))
    ∧ (∀ s, handshake 0 = Except.ok s →
        newConn base handshake = some (Except.ok ⟨s, url⟩, 1)) := by
  unfold newConn
  rw [hn]
  refine ⟨?_, ?_, ?_⟩
  · cases h0 : handshake 0 <;> simp [h0]
  · intro e he
    rw [he]
  · intro s hs
    rw [hs]

/-- C8 witness: connecting to an unreachable host yields the wrapped
connect error, one attempt, and no transport. -/
theorem newConn_error_no_retry_witness :
    newConn scenarioUrl unreachableHandshake
      = some (Except.error (ClientError.connect HsError.unreachableHost), 1) := by
  have h := newConn_error_no_retry scenarioUrl scenarioNorm unreachableHandshake (by decide)
  exact h.2.1 HsError.unreachableHost rfl

/-- C9: each `set_base_url` computes its normalized URL locally and then
stores it in one atomic write-lock transition, so over every interleaving
of the two writers and any readers, a read taken after at least one of
the writes observes either the normalized form of `A` or the normalized
form of `B` — never a torn value mixing the two. -/
theorem no_torn_reads (a b a2 b2 init : Url) (tr : List Act)
    (ha : setBaseUrlNormalize a = some a2) (hb : setBaseUrlNormalize b = some b2)
    (hw : Act.writeA ∈ tr ∨ Act.writeB ∈ tr) :
    runState a2 b2 init tr = a2 ∨ runState a2 b2 init tr = b2 := by
  induction tr using List.reverseRecOn with
  | nil => simp at hw
  | append_singleton xs x ih =>
    have hr : runState a2 b2 init (xs ++ [x])
        = (match x with
           | Act.writeA => a2
           | Act.writeB => b2
           | Act.readU => runState a2 b2 init xs) := by
      cases x <;> simp [runState, List.foldl_append]
    cases x with
    | writeA => rw [hr]; left; rfl
    | writeB => rw [hr]; right; rfl
    | readU =>
      rw [hr]
      apply ih
      rcases hw with h | h
      · rcases List.mem_append.mp h with h' | h'
        · exact Or.inl h'
        · simp at h'
      · rcases List.mem_append.mp h with h' | h'
        · exact Or.inr h'
        · simp at h'

/-- C9 witness: a concrete interleaving of the two writes and two reads
ends in one of the two normalized URLs. -/
theorem no_torn_reads_witness :
    runState scenarioNorm canonicalUrl bareWssUrl
        [Act.writeA, Act.readU, Act.writeB, Act.readU] = scenarioNorm
    ∨ runState scenarioNorm canonicalUrl bareWssUrl
        [Act.writeA, Act.readU, Act.writeB, Act.readU] = canonicalUrl :=
  no_torn_reads scenarioUrl canonicalUrl scenarioNorm canonicalUrl bareWssUrl
    [Act.writeA, Act.readU, Act.writeB, Act.readU] (by decide) (by decide) (by decide)

/-- C10: for every URL with an HTTP-family or WebSocket-family scheme,
`set_base_url` reaches its unconditional `Ok(())` return — the
normalization cannot panic and storing the URL produces no error. -/
theorem set_base_url_infallible (u : Url) (hf : httpOrWsFamily u.scheme) (hh : u.host ≠ "") :
    (setBaseUrlCall u).map Prod.fst = some (Except.ok ()) := by
  unfold setBaseUrlCall
  cases ht : hasTW u with
  | true => rw [setBaseUrlNormalize_eq_pos hf hh ht]; rfl
  | false => rw [setBaseUrlNormalize_eq_neg hf hh ht]; rfl

/-- C10 witness: `set_base_url` returns `Ok(())` at the concrete
scenario input. -/
theorem set_base_url_infallible_witness :
    (setBaseUrlCall scenarioUrl).map Prod.fst = some (Except.ok ()) :=
  set_base_url_infallible scenarioUrl (Or.inl rfl) (by decide)

end WebsocketSecure
